import Mathlib

/-!
# Verification of the kibana-log-analyzer core services

Shallow embedding of the log normalization (`LogParserService`), search/filter
(`SearchService`) and analytics aggregation (`AnalyticsService`) engine of the
repository, together with proofs settling the frozen claims C1-C10.

Conventions of the embedding:
* JavaScript strings are Lean `String`s; the string operations used by the code
  (`trim`, `includes`, `startsWith`, `endsWith`, `split`, `replace`,
  `toLowerCase`, `toUpperCase`) are re-implemented on `List Char` so that every
  definition reduces inside the kernel.
* JavaScript objects are association lists `List (String × JsonVal)` with the
  JS property semantics: assignment to an existing key updates the value in
  place, assignment to a fresh key appends it (`objSet`), property access on a
  missing key yields `undefined` (`objGet`).
* JS numbers are modelled as exact rationals `Rat` (all numeric values the
  claims exercise are small integers, far below any double-precision rounding).
* Host functions that are not part of the repository are abstracted as
  parameters: `Date` parsing of a string (`pd : String → Option Int`, epoch
  milliseconds, `none` = Invalid Date), `RegExp` compilation success
  (`rOk`) and matching (`rTest`), locale label formatting (`fmt`), and the
  ingestion clock (`now`).  Theorems quantify over these parameters.
-/

namespace KLA

/-! ## JavaScript string primitives (kernel-computable) -/

/-- JS whitespace for `String.prototype.trim` (the characters relevant here). -/
def isWsChar (c : Char) : Bool :=
  c = ' ' || c = '\t' || c = '\n' || c = '\r'

/-- `trim()`: drop whitespace at both ends. -/
def jsTrim (s : String) : String :=
  ⟨(s.data.dropWhile isWsChar).reverse.dropWhile isWsChar |>.reverse⟩

/-- `startsWith(p)`. -/
def jsStartsWith (s p : String) : Bool := p.data.isPrefixOf s.data

/-- `endsWith(p)`. -/
def jsEndsWith (s p : String) : Bool := p.data.isSuffixOf s.data

/-- Does `pat` occur as a contiguous run inside `hay`? -/
def containsSub (hay pat : List Char) : Bool :=
  if pat.isPrefixOf hay then true
  else
    match hay with
    | [] => false
    | _ :: rest => containsSub rest pat

/-- `includes(p)` (for non-empty `p`). -/
def jsIncludes (s p : String) : Bool := containsSub s.data p.data

/-- One step of global literal replacement on character lists: replace every
(leftmost, non-overlapping) occurrence of `p :: ps`, continuing after the
replacement text, exactly as a JS global-regex literal replace does.  The
fuel argument (instantiated with the list's length, which each step strictly
consumes) keeps the recursion structural so that terms reduce in the kernel. -/
def replaceAllAux (p : Char) (ps rep : List Char) : Nat → List Char → List Char
  | _, [] => []
  | 0, l => l
  | fuel + 1, c :: rest =>
    if (p :: ps).isPrefixOf (c :: rest) then
      rep ++ replaceAllAux p ps rep fuel ((c :: rest).drop (ps.length + 1))
    else
      c :: replaceAllAux p ps rep fuel rest

/-- `replace(/pat/g, rep)` for a literal non-empty pattern. -/
def jsReplaceAll (s pat rep : String) : String :=
  match pat.data with
  | [] => s
  | p :: ps => ⟨replaceAllAux p ps rep.data s.data.length s.data⟩

/-- `toLowerCase()` (ASCII, which is all the code compares). -/
def jsToLower (s : String) : String := ⟨s.data.map Char.toLower⟩

/-- `toUpperCase()` (ASCII). -/
def jsToUpper (s : String) : String := ⟨s.data.map Char.toUpper⟩

/-- `split('\n')` on character lists. -/
def splitNlAux : List Char → List Char → List String
  | acc, [] => [⟨acc.reverse⟩]
  | acc, c :: rest =>
    if c = '\n' then ⟨acc.reverse⟩ :: splitNlAux [] rest
    else splitNlAux (c :: acc) rest

/-- `split('\n')`. -/
def jsSplitNl (s : String) : List String := splitNlAux [] s.data

/-! ## JavaScript values and objects -/

/-- A JavaScript value as the log pipeline sees it.  Numbers are exact
rationals (see the header note). -/
inductive JsonVal where
  | undefined : JsonVal
  | null : JsonVal
  | bool : Bool → JsonVal
  | num : Rat → JsonVal
  | str : String → JsonVal
  | arr : List JsonVal → JsonVal
  | obj : List (String × JsonVal) → JsonVal

mutual

/-- Decidable equality for `JsonVal` (hand-rolled: `deriving` does not handle
the nested lists). -/
def decEqVal : (a b : JsonVal) → Decidable (a = b)
  | .undefined, .undefined => isTrue rfl
  | .null, .null => isTrue rfl
  | .bool a, .bool b =>
    match decEq a b with
    | isTrue h => isTrue (by rw [h])
    | isFalse h => isFalse (by simp [h])
  | .num a, .num b =>
    match decEq a b with
    | isTrue h => isTrue (by rw [h])
    | isFalse h => isFalse (by simp [h])
  | .str a, .str b =>
    match decEq a b with
    | isTrue h => isTrue (by rw [h])
    | isFalse h => isFalse (by simp [h])
  | .arr a, .arr b =>
    match decEqValList a b with
    | isTrue h => isTrue (by rw [h])
    | isFalse h => isFalse (by simp [h])
  | .obj a, .obj b =>
    match decEqValFields a b with
    | isTrue h => isTrue (by rw [h])
    | isFalse h => isFalse (by simp [h])
  | .undefined, .null | .undefined, .bool _ | .undefined, .num _ | .undefined, .str _
  | .undefined, .arr _ | .undefined, .obj _ => isFalse (by simp)
  | .null, .undefined | .null, .bool _ | .null, .num _ | .null, .str _
  | .null, .arr _ | .null, .obj _ => isFalse (by simp)
  | .bool _, .undefined | .bool _, .null | .bool _, .num _ | .bool _, .str _
  | .bool _, .arr _ | .bool _, .obj _ => isFalse (by simp)
  | .num _, .undefined | .num _, .null | .num _, .bool _ | .num _, .str _
  | .num _, .arr _ | .num _, .obj _ => isFalse (by simp)
  | .str _, .undefined | .str _, .null | .str _, .bool _ | .str _, .num _
  | .str _, .arr _ | .str _, .obj _ => isFalse (by simp)
  | .arr _, .undefined | .arr _, .null | .arr _, .bool _ | .arr _, .num _
  | .arr _, .str _ | .arr _, .obj _ => isFalse (by simp)
  | .obj _, .undefined | .obj _, .null | .obj _, .bool _ | .obj _, .num _
  | .obj _, .str _ | .obj _, .arr _ => isFalse (by simp)

def decEqValList : (a b : List JsonVal) → Decidable (a = b)
  | [], [] => isTrue rfl
  | [], _ :: _ => isFalse (by simp)
  | _ :: _, [] => isFalse (by simp)
  | x :: xs, y :: ys =>
    match decEqVal x y, decEqValList xs ys with
    | isTrue h1, isTrue h2 => isTrue (by rw [h1, h2])
    | isFalse h1, _ => isFalse (by simp [h1])
    | _, isFalse h2 => isFalse (by simp [h2])

def decEqValFields : (a b : List (String × JsonVal)) → Decidable (a = b)
  | [], [] => isTrue rfl
  | [], _ :: _ => isFalse (by simp)
  | _ :: _, [] => isFalse (by simp)
  | (k1, v1) :: xs, (k2, v2) :: ys =>
    match decEq k1 k2, decEqVal v1 v2, decEqValFields xs ys with
    | isTrue h0, isTrue h1, isTrue h2 => isTrue (by rw [h0, h1, h2])
    | isFalse h0, _, _ => isFalse (by simp [h0])
    | _, isFalse h1, _ => isFalse (by simp [h1])
    | _, _, isFalse h2 => isFalse (by simp [h2])

end

instance : DecidableEq JsonVal := decEqVal

/-- A JS object: ordered association list with unique keys (all builders below
go through `objSet`, which preserves uniqueness). -/
abbrev JsObj := List (String × JsonVal)

/-- Property read: first binding of the key, `undefined` when absent. -/
def objGet (o : JsObj) (k : String) : JsonVal :=
  match o.find? (fun kv => kv.1 = k) with
  | some kv => kv.2
  | none => .undefined

/-- Property write with JS semantics: update in place if the key exists
(keeping its position), else append. -/
def objSet (o : JsObj) (k : String) (v : JsonVal) : JsObj :=
  match o with
  | [] => [(k, v)]
  | (k', v') :: rest => if k' = k then (k', v) :: rest else (k', v') :: objSet rest k v

/-- `Object.assign(a, b)`: write every binding of `b` into `a`, in order. -/
def objAssign (a b : JsObj) : JsObj :=
  b.foldl (fun acc kv => objSet acc kv.1 kv.2) a

/-- The keys of an object. -/
def objKeys (o : JsObj) : List String := o.map Prod.fst

/-- JS truthiness of a value (`''`, `0`, `false`, `null`, `undefined` falsy). -/
def truthy : JsonVal → Bool
  | .undefined => false
  | .null => false
  | .bool b => b
  | .num q => q ≠ 0
  | .str s => s ≠ ""
  | .arr _ => true
  | .obj _ => true

/-- Is this a plain object (`typeof v === 'object'`, truthy, not an array)?
`null` is excluded because it is falsy. -/
def isPlainObj : JsonVal → Bool
  | .obj _ => true
  | _ => false

/-- `Object.entries` of a value: the fields of an object, `[]` otherwise. -/
def jsObjFields : JsonVal → JsObj
  | .obj fs => fs
  | _ => []

/-- Decimal expansion of the fractional part `num/den` (fuel-bounded; exact for
every value the claims touch — non-terminating expansions would have been
rounded by the host's double formatting anyway). -/
def fracDigits : Nat → Nat → Nat → List Char
  | 0, _, _ => []
  | _, 0, _ => []
  | fuel + 1, den, rem =>
    if rem = 0 then []
    else
      let d := rem * 10 / den
      Char.ofNat (48 + d % 10) :: fracDigits fuel den (rem * 10 % den)

/-- `String(n)` for a number (exact for integers, best-effort decimals). -/
def ratToString (q : Rat) : String :=
  if q.den = 1 then toString q.num
  else
    let sign := if q.num < 0 then "-" else ""
    let n := q.num.natAbs
    sign ++ toString (n / q.den) ++ "." ++ ⟨fracDigits 20 q.den (n % q.den)⟩

mutual

/-- `String(v)`: the JS string coercion used by the quick-filter and search
stages (`null → "null"`, `undefined → "undefined"`, arrays joined by `,`,
plain objects give `[object Object]`). -/
def jsToString : JsonVal → String
  | .undefined => "undefined"
  | .null => "null"
  | .bool true => "true"
  | .bool false => "false"
  | .num q => ratToString q
  | .str s => s
  | .arr xs => String.intercalate "," (jsToStringElems xs)
  | .obj _ => "[object Object]"

/-- `Array.prototype.join` element coercion: `null`/`undefined` become the
empty string, everything else is `String(v)`. -/
def jsToStringElems : List JsonVal → List String
  | [] => []
  | .undefined :: rest => "" :: jsToStringElems rest
  | .null :: rest => "" :: jsToStringElems rest
  | v :: rest => jsToString v :: jsToStringElems rest

end

/-- Quote and escape a string as `JSON.stringify` does (the escapes the code
can produce: quote and backslash; control characters are not exercised). -/
def stringifyStr (s : String) : String :=
  "\"" ++ ⟨s.data.foldr (fun c acc =>
    if c = '"' then '\\' :: '"' :: acc
    else if c = '\\' then '\\' :: '\\' :: acc
    else if c = '\n' then '\\' :: 'n' :: acc
    else if c = '\t' then '\\' :: 't' :: acc
    else if c = '\r' then '\\' :: 'r' :: acc
    else c :: acc) []⟩ ++ "\""

mutual

/-- `JSON.stringify(v)` (as used on array/object field values by the search
stage; `undefined` is only reachable inside arrays, where it prints `null`). -/
def jsonStringify : JsonVal → String
  | .undefined => "null"
  | .null => "null"
  | .bool true => "true"
  | .bool false => "false"
  | .num q => ratToString q
  | .str s => stringifyStr s
  | .arr xs => "[" ++ String.intercalate "," (jsonStringifyList xs) ++ "]"
  | .obj fs => "\x7b" ++ String.intercalate "," (jsonStringifyFields fs) ++ "\x7d"

def jsonStringifyList : List JsonVal → List String
  | [] => []
  | v :: rest => jsonStringify v :: jsonStringifyList rest

def jsonStringifyFields : List (String × JsonVal) → List String
  | [] => []
  | (_, .undefined) :: rest => jsonStringifyFields rest
  | (k, v) :: rest => (stringifyStr k ++ ":" ++ jsonStringify v) :: jsonStringifyFields rest

end

/-! ## `JSON.parse` model

A standard recursive-descent JSON parser (objects, arrays, strings with
escapes, numbers with fraction/exponent, literals).  `none` models a thrown
`SyntaxError`.  Recursion is fuel-bounded; `jsonParse` supplies fuel well above
what any input of its length can consume. -/

/-- Skip JSON whitespace. -/
def skipWs (cs : List Char) : List Char := cs.dropWhile isWsChar

def isDigitCh (c : Char) : Bool := '0' ≤ c && c ≤ '9'

def digitsToNat (cs : List Char) : Nat :=
  cs.foldl (fun n c => n * 10 + (c.toNat - 48)) 0

def hexVal (c : Char) : Option Nat :=
  if '0' ≤ c && c ≤ '9' then some (c.toNat - 48)
  else if 'a' ≤ c && c ≤ 'f' then some (c.toNat - 87)
  else if 'A' ≤ c && c ≤ 'F' then some (c.toNat - 55)
  else none

/-- Parse a JSON string body (after the opening quote); returns the decoded
characters and the input after the closing quote. -/
def pStr : Nat → List Char → Option (List Char × List Char)
  | 0, _ => none
  | fuel + 1, cs =>
    match cs with
    | [] => none
    | '"' :: rest => some ([], rest)
    | '\\' :: e :: rest =>
      let push (c : Char) (r : List Char) : Option (List Char × List Char) :=
        (pStr fuel r).map (fun p => (c :: p.1, p.2))
      match e with
      | '"' => push '"' rest
      | '\\' => push '\\' rest
      | '/' => push '/' rest
      | 'b' => push (Char.ofNat 8) rest
      | 'f' => push (Char.ofNat 12) rest
      | 'n' => push '\n' rest
      | 'r' => push '\r' rest
      | 't' => push '\t' rest
      | 'u' =>
        match rest with
        | h1 :: h2 :: h3 :: h4 :: rest' =>
          match hexVal h1, hexVal h2, hexVal h3, hexVal h4 with
          | some a, some b, some c, some d =>
            push (Char.ofNat (((a * 16 + b) * 16 + c) * 16 + d)) rest'
          | _, _, _, _ => none
        | _ => none
      | _ => none
    | c :: rest =>
      if c.toNat < 32 then none
      else (pStr fuel rest).map (fun p => (c :: p.1, p.2))

/-- Parse a JSON number at the head of the input. -/
def pNum (cs : List Char) : Option (Rat × List Char) :=
  let (neg, cs1) := match cs with
    | '-' :: r => (true, r)
    | _ => (false, cs)
  let ip := cs1.takeWhile isDigitCh
  let cs2 := cs1.dropWhile isDigitCh
  if ip = [] then none
  else if 1 < ip.length && ip.head? = some '0' then none
  else
    let (fr, cs3) : List Char × List Char := match cs2 with
      | '.' :: r => (r.takeWhile isDigitCh, r.dropWhile isDigitCh)
      | _ => ([], cs2)
    if cs2 ≠ cs3 && fr = [] then none
    else
      let (hasExp, cs4) : Bool × List Char := match cs3 with
        | 'e' :: r => (true, r)
        | 'E' :: r => (true, r)
        | _ => (false, cs3)
      let (expNeg, cs5) : Bool × List Char := match hasExp, cs4 with
        | true, '+' :: r => (false, r)
        | true, '-' :: r => (true, r)
        | _, _ => (false, cs4)
      let ed := if hasExp then cs5.takeWhile isDigitCh else []
      let cs6 := if hasExp then cs5.dropWhile isDigitCh else cs5
      if hasExp && ed = [] then none
      else
        let mant : Rat := (digitsToNat (ip ++ fr) : Rat) / ((10 : Rat) ^ fr.length)
        let scaled : Rat :=
          if expNeg then mant / ((10 : Rat) ^ digitsToNat ed)
          else mant * ((10 : Rat) ^ digitsToNat ed)
        some ((if neg then -scaled else scaled), cs6)

mutual

/-- Parse one JSON value, returning it and the remaining input. -/
def pVal : Nat → List Char → Option (JsonVal × List Char)
  | 0, _ => none
  | fuel + 1, cs =>
    match skipWs cs with
    | [] => none
    | '{' :: rest =>
      match skipWs rest with
      | '}' :: r2 => some (.obj [], r2)
      | r1 => pMembers fuel r1 []
    | '[' :: rest =>
      match skipWs rest with
      | ']' :: r2 => some (.arr [], r2)
      | r1 => pElems fuel r1 []
    | '"' :: rest => (pStr (rest.length + 1) rest).map (fun p => (.str ⟨p.1⟩, p.2))
    | c :: rest =>
      let l := c :: rest
      if ['t', 'r', 'u', 'e'].isPrefixOf l then some (.bool true, l.drop 4)
      else if ['f', 'a', 'l', 's', 'e'].isPrefixOf l then some (.bool false, l.drop 5)
      else if ['n', 'u', 'l', 'l'].isPrefixOf l then some (.null, l.drop 4)
      else (pNum l).map (fun p => (.num p.1, p.2))

/-- Parse the members of an object (cursor just before a key). -/
def pMembers : Nat → List Char → JsObj → Option (JsonVal × List Char)
  | 0, _, _ => none
  | fuel + 1, cs, acc =>
    match skipWs cs with
    | '"' :: rest =>
      match pStr (rest.length + 1) rest with
      | none => none
      | some (k, r1) =>
        match skipWs r1 with
        | ':' :: r2 =>
          match pVal fuel r2 with
          | none => none
          | some (v, r3) =>
            let acc' := objSet acc ⟨k⟩ v
            match skipWs r3 with
            | ',' :: r4 => pMembers fuel r4 acc'
            | '}' :: r4 => some (.obj acc', r4)
            | _ => none
        | _ => none
    | _ => none

/-- Parse the elements of an array (cursor just before an element). -/
def pElems : Nat → List Char → List JsonVal → Option (JsonVal × List Char)
  | 0, _, _ => none
  | fuel + 1, cs, acc =>
    match pVal fuel cs with
    | none => none
    | some (v, r1) =>
      match skipWs r1 with
      | ',' :: r2 => pElems fuel r2 (acc ++ [v])
      | ']' :: r2 => some (.arr (acc ++ [v]), r2)
      | _ => none

end

/-- `JSON.parse(s)`: `some v` on success, `none` models the thrown error. -/
def jsonParse (s : String) : Option JsonVal :=
  match pVal (2 * s.data.length + 4) s.data with
  | some (v, rest) => if skipWs rest = [] then some v else none
  | none => none

/-! ## LogParserService -/

/-- Dot-path key concatenation: `prefix ? prefix + "." + key : key`. -/
def joinKey (pfx k : String) : String := if pfx = "" then k else pfx ++ "." ++ k

mutual

/-- Worker of `flattenObject`: iterate the entries, recursing into plain
nested objects (`value && typeof value === 'object' && !Array.isArray(value)`,
i.e. exactly the `.obj` constructor — `null` is falsy and arrays are excluded)
and writing every other value at its dot-path key. -/
def flattenList : JsObj → List (String × JsonVal) → String → JsObj
  | result, [], _ => result
  | result, (k, v) :: rest, pfx =>
    flattenList (flattenVal result (joinKey pfx k) v) rest pfx

/-- One loop iteration of `flattenObject`: `Object.assign(result, recurse)`
for a plain nested object, `result[newKey] = value` for everything else. -/
def flattenVal : JsObj → String → JsonVal → JsObj
  | result, newKey, .obj fields => objAssign result (flattenList [] fields newKey)
  | result, newKey, .undefined => objSet result newKey .undefined
  | result, newKey, .null => objSet result newKey .null
  | result, newKey, .bool b => objSet result newKey (.bool b)
  | result, newKey, .num q => objSet result newKey (.num q)
  | result, newKey, .str s => objSet result newKey (.str s)
  | result, newKey, .arr xs => objSet result newKey (.arr xs)

end

/-- `flattenObject(obj, prefix)`. -/
def flattenObject (entries : List (String × JsonVal)) (pfx : String) : JsObj :=
  flattenList [] entries pfx

/-- Timestamp field candidates, in priority order. -/
def timestampFields : List String :=
  ["@timestamp", "timestamp", "time", "datetime", "date", "created_at"]

/-- `detectTimestamp`: first candidate whose value is truthy and a string
(so: a non-empty string). -/
def detectTimestamp (entry : JsObj) : Option String :=
  timestampFields.findSome? (fun f =>
    match objGet entry f with
    | .str s => if s ≠ "" then some s else none
    | _ => none)

/-- Level field candidates, in priority order. -/
def levelFields : List String := ["level", "log.level", "severity", "loglevel"]

/-- `detectLevel`: first candidate with a truthy value, coerced to string and
upper-cased. -/
def detectLevel (entry : JsObj) : Option String :=
  levelFields.findSome? (fun f =>
    let v := objGet entry f
    if truthy v then some (jsToUpper (jsToString v)) else none)

/-- Message field candidates, in priority order. -/
def messageFields : List String := ["message", "msg", "text", "log", "log.message"]

/-- `detectMessage`: first candidate whose value is truthy and a string. -/
def detectMessage (entry : JsObj) : Option String :=
  messageFields.findSome? (fun f =>
    match objGet entry f with
    | .str s => if s ≠ "" then some s else none
    | _ => none)

/-! ### Text-line pattern extraction (the two regexes, as explicit scanners) -/

/-- Match exactly `n` digits at the head. -/
def takeDigits (n : Nat) (cs : List Char) : Option (List Char × List Char) :=
  let d := cs.take n
  if d.length = n && d.all isDigitCh then some (d, cs.drop n) else none

/-- Match one literal character at the head. -/
def takeCh (c : Char) : List Char → Option (List Char)
  | c' :: rest => if c' = c then some rest else none
  | [] => none

/-- Match `\d{4}-\d{2}-\d{2}T\d{2}:\d{2}:\d{2}(?:\.\d{3})?(?:Z|[+-]\d{2}:?\d{2})?`
at the current position, returning the matched text. -/
def matchIsoAt (cs : List Char) : Option (List Char) :=
  match takeDigits 4 cs with
  | none => none
  | some (d1, r1) =>
  match takeCh '-' r1 with
  | none => none
  | some r2 =>
  match takeDigits 2 r2 with
  | none => none
  | some (d2, r3) =>
  match takeCh '-' r3 with
  | none => none
  | some r4 =>
  match takeDigits 2 r4 with
  | none => none
  | some (d3, r5) =>
  match takeCh 'T' r5 with
  | none => none
  | some r6 =>
  match takeDigits 2 r6 with
  | none => none
  | some (d4, r7) =>
  match takeCh ':' r7 with
  | none => none
  | some r8 =>
  match takeDigits 2 r8 with
  | none => none
  | some (d5, r9) =>
  match takeCh ':' r9 with
  | none => none
  | some r10 =>
  match takeDigits 2 r10 with
  | none => none
  | some (d6, r11) =>
    let core := d1 ++ '-' :: d2 ++ '-' :: d3 ++ 'T' :: d4 ++ ':' :: d5 ++ ':' :: d6
    -- optional (?:\.\d{3})
    let (frac, r12) : List Char × List Char :=
      match r11 with
      | '.' :: r =>
        match takeDigits 3 r with
        | some (f, r') => ('.' :: f, r')
        | none => ([], r11)
      | _ => ([], r11)
    -- optional (?:Z|[+-]\d{2}:?\d{2})
    let tz : List Char :=
      match r12 with
      | 'Z' :: _ => ['Z']
      | s :: r =>
        if s = '+' || s = '-' then
          match takeDigits 2 r with
          | some (h, r') =>
            (match r' with
             | ':' :: r'' =>
               match takeDigits 2 r'' with
               | some (m, _) => s :: h ++ ':' :: m
               | none => []
             | _ =>
               match takeDigits 2 r' with
               | some (m, _) => s :: h ++ m
               | none => [])
          | none => []
        else []
      | [] => []
    some (core ++ frac ++ tz)

/-- Match `\d{4}-\d{2}-\d{2}\s+\d{2}:\d{2}:\d{2}` at the current position. -/
def matchCommonAt (cs : List Char) : Option (List Char) :=
  match takeDigits 4 cs with
  | none => none
  | some (d1, r1) =>
  match takeCh '-' r1 with
  | none => none
  | some r2 =>
  match takeDigits 2 r2 with
  | none => none
  | some (d2, r3) =>
  match takeCh '-' r3 with
  | none => none
  | some r4 =>
  match takeDigits 2 r4 with
  | none => none
  | some (d3, r5) =>
    let ws := r5.takeWhile isWsChar
    let r6 := r5.dropWhile isWsChar
    if ws = [] then none
    else
      match takeDigits 2 r6 with
      | none => none
      | some (d4, r7) =>
      match takeCh ':' r7 with
      | none => none
      | some r8 =>
      match takeDigits 2 r8 with
      | none => none
      | some (d5, r9) =>
      match takeCh ':' r9 with
      | none => none
      | some r10 =>
      match takeDigits 2 r10 with
      | none => none
      | some (d6, _) =>
        some (d1 ++ '-' :: d2 ++ '-' :: d3 ++ ws ++ d4 ++ ':' :: d5 ++ ':' :: d6)

/-- Leftmost match of a position matcher (regex `match` semantics). -/
def scanFirst (f : List Char → Option (List Char)) : List Char → Option (List Char)
  | [] => f []
  | c :: rest =>
    match f (c :: rest) with
    | some m => some m
    | none => scanFirst f rest

/-- `extractTimestampFromLine`: ISO-8601 pattern first, then the common log
format pattern. -/
def extractTimestampFromLine (line : String) : Option String :=
  match scanFirst matchIsoAt line.data with
  | some m => some ⟨m⟩
  | none =>
    match scanFirst matchCommonAt line.data with
    | some m => some ⟨m⟩
    | none => none

/-- JS `\w` (ASCII word character). -/
def isWordCh (c : Char) : Bool := c.isAlpha || isDigitCh c || c = '_'

/-- The level keyword alternatives, in the regex's order (`WARN` before
`WARNING`: the regex backtracks into `WARNING` when the trailing `\b` fails,
which the per-alternative boundary check below reproduces). -/
def lvlKeywords : List String :=
  ["DEBUG", "INFO", "WARN", "WARNING", "ERROR", "FATAL", "TRACE", "CRITICAL"]

/-- Try the keyword alternation (case-insensitively) at the current position,
requiring a word boundary after; returns the matched original text. -/
def matchKwAt (cs : List Char) : Option String :=
  lvlKeywords.findSome? (fun kw =>
    let kl := kw.data
    let pre := cs.take kl.length
    if pre.map Char.toUpper = kl &&
        (match cs.drop kl.length with
         | [] => true
         | c :: _ => !isWordCh c) then
      some ⟨pre⟩
    else none)

/-- Scan for `\b(DEBUG|INFO|...)\b/i`; the flag says whether the current
position sits at a word boundary on the left. -/
def extractLevelScan : Bool → List Char → Option String
  | atBoundary, [] => if atBoundary then matchKwAt [] else none
  | atBoundary, c :: rest =>
    match (if atBoundary then matchKwAt (c :: rest) else none) with
    | some m => some m
    | none => extractLevelScan (!isWordCh c) rest

/-- `extractLevelFromLine`: leftmost keyword match, upper-cased. -/
def extractLevelFromLine (line : String) : Option String :=
  (extractLevelScan true line.data).map jsToUpper

/-! ### Entry construction -/

/-- `normalizeEntry(entry, index)`: flatten, detect the named fields, then
build the object literal — whose trailing `...flattened` spread overwrites any
literal key that also occurs in `flattened`. -/
def normalizeEntry (now : String) (entry : JsonVal) (index : Nat) : JsObj :=
  let flattened := flattenObject (jsObjFields entry) ""
  let rawId := objGet (jsObjFields entry) "_id"
  let base : JsObj :=
    [("_id", if truthy rawId then rawId else .str ("entry-" ++ toString index)),
     ("_index", objGet (jsObjFields entry) "_index"),
     ("@timestamp", .str ((detectTimestamp flattened).getD now)),
     ("level", match detectLevel flattened with | some s => .str s | none => .undefined),
     ("message", match detectMessage flattened with | some s => .str s | none => .undefined)]
  objAssign base flattened

/-- `createTextEntry(line, index)`. -/
def createTextEntry (now line : String) (index : Nat) : JsObj :=
  [("_id", .str ("line-" ++ toString index)),
   ("@timestamp", .str ((extractTimestampFromLine line).getD now)),
   ("level", match extractLevelFromLine line with | some s => .str s | none => .undefined),
   ("message", .str line),
   ("_raw", .str line)]

/-- `parseNdjson`: split on newlines, keep the lines with non-blank trims,
parse each independently, downgrading a failing line to a text entry. -/
def parseNdjson (now content : String) : List JsObj :=
  let lines := (jsSplitNl content).filter (fun l => jsTrim l ≠ "")
  lines.enum.map (fun p =>
    match jsonParse p.2 with
    | some v => normalizeEntry now v p.1
    | none => createTextEntry now p.2 p.1)

/-- `parsePlainText`: every line (blank ones included) becomes a text entry. -/
def parsePlainText (now content : String) (_filename : String) : List JsObj :=
  (jsSplitNl content).enum.map (fun p => createTextEntry now p.2 p.1)

/-- `parseJsonArray`: `JSON.parse` the whole content; a parse failure is the
host `SyntaxError`, a non-array parse throws `Expected JSON array`. -/
def parseJsonArrayE (now content : String) : Except String (List JsObj) :=
  match jsonParse content with
  | none => .error "Unexpected token"
  | some (.arr elems) => .ok (elems.enum.map (fun p => normalizeEntry now p.2 p.1))
  | some _ => .error "Expected JSON array"

/-- The service's signal state: `_logs`, `_isLoading`, `_error`. -/
structure ParserState where
  logs : List JsObj
  isLoading : Bool
  error : Option String
  deriving DecidableEq

/-- `parseLogFile`: clear the error, dispatch on the trimmed content's first
character, and set the logs — but only when no exception was thrown; the
`catch` branch records the message and leaves `_logs` untouched. -/
def parseLogFile (now : String) (st : ParserState) (content filename : String) :
    ParserState :=
  let trimmed := jsTrim content
  let res : Except String (List JsObj) :=
    if jsStartsWith trimmed "[" then parseJsonArrayE now trimmed
    else if jsStartsWith trimmed "\x7b" then .ok (parseNdjson now trimmed)
    else .ok (parsePlainText now trimmed filename)
  match res with
  | .ok entries => { logs := entries, isLoading := false, error := none }
  | .error e => { logs := st.logs, isLoading := false, error := some e }

/-! ### unescapeString -/

/-- The replacement chain of one pass: `\"`, `\n`, `\t`, `\r`, then `\\`. -/
def escReplace (s : String) : String :=
  jsReplaceAll
    (jsReplaceAll
      (jsReplaceAll
        (jsReplaceAll
          (jsReplaceAll s "\\\"" "\"")
          "\\n" "\n")
        "\\t" "\t")
      "\\r" "\r")
    "\\\\" "\\"

/-- Outcome of one iteration of the `while` loop: continue with a new value,
leave the loop (`break` / no-change), or propagate a `JSON.parse` exception. -/
inductive PassOut where
  | next : String → PassOut
  | stop : String → PassOut
  | thrown : PassOut

/-- The escaped-characters part of a pass: note the guard tests only `\"`,
`\n` and `\t` — not `\r` or `\\`. -/
def escCheck (r : String) : PassOut :=
  if jsIncludes r "\\\"" || jsIncludes r "\\n" || jsIncludes r "\\t" then
    let u := escReplace r
    if u ≠ r then .next u else .stop r
  else .stop r

/-- One iteration of the loop body. -/
def unescStep (result : String) : PassOut :=
  if jsStartsWith result "\"" && jsEndsWith result "\"" then
    match jsonParse result with
    | none => .thrown
    | some (.str s) => .next s
    | some _ => escCheck result
  else escCheck result

/-- The loop: at most `fuel` passes; an exception returns the original. -/
def unescRun : Nat → String → String → String
  | 0, _, result => result
  | fuel + 1, orig, result =>
    match unescStep result with
    | .next s => unescRun fuel orig s
    | .stop s => s
    | .thrown => orig

/-- `unescapeString(str)`: empty input returned as is; otherwise up to three
passes. -/
def unescapeString (str : String) : String :=
  if str = "" then str else unescRun 3 str str

/-! ## SearchService -/

inductive FilterOp where
  | equals : FilterOp
  | contains : FilterOp
  | not_equals : FilterOp
  deriving DecidableEq

structure SearchFilter where
  field : String
  value : String
  op : FilterOp
  deriving DecidableEq

/-- `TimeRange` (`end` is a Lean keyword, hence `endTime`); instants are epoch
milliseconds. -/
structure TimeRange where
  start : Option Int
  endTime : Option Int
  deriving DecidableEq

/-- The service's search state signals. -/
structure SearchState where
  searchQuery : String
  isRegex : Bool
  quickFilters : List SearchFilter
  timeRange : TimeRange
  caseSensitive : Bool

/-- `new Date(v).getTime()` for a field value, `none` = Invalid Date (NaN).
String parsing is the host's, abstracted as `pd`; a number is clipped to an
integer; `null`/booleans convert via their numeric value; arrays and objects
go through their string coercion. -/
def jsNewDate (pd : String → Option Int) : JsonVal → Option Int
  | .str s => pd s
  | .num q => some (if 0 ≤ q then q.floor else q.ceil)
  | .null => some 0
  | .bool b => some (if b then 1 else 0)
  | .undefined => none
  | .arr xs => pd (jsToString (.arr xs))
  | .obj fs => pd (jsToString (.obj fs))

/-- `timestamp < bound` where the timestamp may be an Invalid Date: any
comparison against NaN is false. -/
def nanLt : Option Int → Int → Bool
  | some t, b => t < b
  | none, _ => false

/-- `timestamp > bound` with the same NaN rule. -/
def nanGt : Option Int → Int → Bool
  | some t, b => b < t
  | none, _ => false

/-- The time-range predicate of `filterLogs`:
`if (start && ts < start) return false; if (end && ts > end) return false`. -/
def timeRangeKeep (pd : String → Option Int) (tr : TimeRange) (e : JsObj) : Bool :=
  let ts := jsNewDate pd (objGet e "@timestamp")
  if tr.start.any (fun s => nanLt ts s) then false
  else if tr.endTime.any (fun b => nanGt ts b) then false
  else true

/-- `String(entry[filter.field] ?? '')`. -/
def coerceFilterVal : JsonVal → String
  | .undefined => ""
  | .null => ""
  | v => jsToString v

/-- One quick filter applied to one record. -/
def quickFilterMatch (e : JsObj) (f : SearchFilter) : Bool :=
  let entryValue := coerceFilterVal (objGet e f.field)
  match f.op with
  | .equals => entryValue == f.value
  | .contains => jsIncludes (jsToLower entryValue) (jsToLower f.value)
  | .not_equals => entryValue != f.value

/-- The string form a field value takes in the query stage
(`typeof value === 'object' ? JSON.stringify(value) : String(value)`). -/
def searchValueString : JsonVal → String
  | .arr xs => jsonStringify (.arr xs)
  | .obj fs => jsonStringify (.obj fs)
  | v => jsToString v

/-- `matchesRegex`, with the compiled regex's test abstracted as `test`;
`null`/`undefined` values are skipped. -/
def matchesRegex (test : String → Bool) (e : JsObj) : Bool :=
  e.any (fun kv =>
    match kv.2 with
    | .null => false
    | .undefined => false
    | v => test (searchValueString v))

/-- `matchesSearch` (the query argument is already case-folded by the
caller when insensitive). -/
def matchesSearch (query : String) (caseSensitive : Bool) (e : JsObj) : Bool :=
  e.any (fun kv =>
    match kv.2 with
    | .null => false
    | .undefined => false
    | v =>
      let sv := searchValueString v
      jsIncludes (if caseSensitive then sv else jsToLower sv) query)

/-- `filterLogs(logs)`: time range, then quick filters (AND), then the query
(regex mode skipping the stage on a compile error, literal mode otherwise).
`rOk q cs` models `new RegExp(q, …)` compiling, `rTest q cs` the test. -/
def filterLogs (pd : String → Option Int) (rOk : String → Bool → Bool)
    (rTest : String → Bool → String → Bool) (st : SearchState)
    (logs : List JsObj) : List JsObj :=
  let f1 :=
    if st.timeRange.start.isSome || st.timeRange.endTime.isSome then
      logs.filter (timeRangeKeep pd st.timeRange)
    else logs
  let f2 :=
    if 0 < st.quickFilters.length then
      f1.filter (fun e => st.quickFilters.all (quickFilterMatch e))
    else f1
  let query := jsTrim st.searchQuery
  if 0 < query.length then
    if st.isRegex then
      if rOk query st.caseSensitive then
        f2.filter (matchesRegex (rTest query st.caseSensitive))
      else f2
    else
      let searchLower := if st.caseSensitive then query else jsToLower query
      f2.filter (matchesSearch searchLower st.caseSensitive)
  else f2

/-! ## AnalyticsService -/

/-- `(log.level || 'UNKNOWN').toUpperCase()`. -/
def levelOf (e : JsObj) : String :=
  let v := objGet e "level"
  jsToUpper (if truthy v then jsToString v else "UNKNOWN")

/-- `Map.set(level, (get(level) || 0) + 1)`: increment in place, append new
keys (JS `Map` iterates in insertion order). -/
def bumpCount : List (String × Nat) → String → List (String × Nat)
  | [], l => [(l, 1)]
  | (k, n) :: rest, l =>
    if k = l then (k, n + 1) :: rest else (k, n) :: bumpCount rest l

/-- The per-level counts of a record list, in first-appearance order. -/
def levelCounts (logs : List JsObj) : List (String × Nat) :=
  logs.foldl (fun m e => bumpCount m (levelOf e)) []

/-- The fixed severity priority list. -/
def levelPriority : List String :=
  ["ERROR", "FATAL", "CRITICAL", "WARN", "WARNING", "INFO", "DEBUG", "TRACE", "UNKNOWN"]

/-- `Array.prototype.indexOf`: position or `-1`. -/
def jsIndexOf (l : List String) (s : String) : Int :=
  match l with
  | [] => -1
  | x :: rest =>
    if x = s then 0
    else
      let r := jsIndexOf rest s
      if r < 0 then -1 else r + 1

/-- The level comparator (`aPriority - bPriority`, ties by `bCount - aCount`),
as the boolean `cmp < 0` that drives the sort. -/
def levelCmpLt (a b : String × Nat) : Bool :=
  let pa := jsIndexOf levelPriority a.1
  let pb := jsIndexOf levelPriority b.1
  (if pa ≠ pb then pa - pb else (b.2 : Int) - (a.2 : Int)) < 0

/-- Stable insertion of one element, placing it before the first element it
compares strictly below — the ordering a stable `Array.prototype.sort`
produces for a consistent comparator. -/
def insertCmp (ltb : α → α → Bool) (x : α) : List α → List α
  | [] => [x]
  | y :: ys => if ltb x y then x :: y :: ys else y :: insertCmp ltb x ys

/-- Stable sort by a `cmp < 0` predicate. -/
def sortByCmp (ltb : α → α → Bool) (l : List α) : List α :=
  l.foldl (fun acc x => insertCmp ltb x acc) []

/-- The fixed per-level colors (`levelColors[level] || '#888888'`). -/
def levelColor (l : String) : String :=
  if l = "ERROR" then "#C62828"
  else if l = "FATAL" then "#AD1457"
  else if l = "CRITICAL" then "#AD1457"
  else if l = "WARN" then "#E65100"
  else if l = "WARNING" then "#E65100"
  else if l = "INFO" then "#1565C0"
  else if l = "DEBUG" then "#2E7D32"
  else if l = "TRACE" then "#455A64"
  else if l = "UNKNOWN" then "#888888"
  else "#888888"

structure LevelCount where
  level : String
  count : Nat
  percentage : Rat
  color : String
  deriving DecidableEq

/-- `levelDistribution` over a record list. -/
def levelDistribution (logs : List JsObj) : List LevelCount :=
  let counts := levelCounts logs
  let total := logs.length
  (sortByCmp levelCmpLt counts).map (fun kc =>
    { level := kc.1
      count := kc.2
      percentage := if 0 < total then (kc.2 : Rat) / (total : Rat) * 100 else 0
      color := levelColor kc.1 })

/-- `Math.floor(ts / bucketMs) * bucketMs`. -/
def bucketKey (b t : Int) : Int := (Int.fdiv t b) * b

/-- `Array.prototype.filter`'s index-aware form (used by the down-sampling
step `result.filter((_, i) => i % step === 0)`). -/
def filterIdx (p : Nat → Bool) : Nat → List α → List α
  | _, [] => []
  | i, x :: xs => if p i then x :: filterIdx p (i + 1) xs else filterIdx p (i + 1) xs

/-- The tail of `timelineData` (source lines 208-214): down-sample to every
`Math.ceil(length / 30)`-th element when the series exceeds 30 points. -/
def downsample30 (result : List α) : List α :=
  if 30 < result.length then
    let step := (result.length + 29) / 30
    filterIdx (fun i => i % step == 0) 0 result
  else result

structure TimelineBucket where
  time : Int
  label : String
  count : Nat
  maxCount : Nat
  deriving DecidableEq

/-- `timelineData`: parse and sort the timestamps, choose the bucket width
from the range, gap-fill every bucket between the first and last, down-sample
to every `ceil(n/30)`-th bucket when more than 30 (for a natural number `n`,
`Math.ceil(n / 30)` is exactly `(n + 29) / 30` and `Math.floor(n * 0.95)` in
`bucketStats` below is exactly `19 * n / 20`: both double computations are
exact at every feasible length). -/
def timelineData (fmt : Int → String) (pd : String → Option Int)
    (logs : List JsObj) : List TimelineBucket :=
  if logs.length = 0 then []
  else
    let timestamps := sortByCmp (fun a b : Int => decide (a < b))
      (logs.filterMap (fun e => jsNewDate pd (objGet e "@timestamp")))
    match timestamps with
    | [] => []
    | t0 :: _ =>
      let minTime := t0
      let maxTime := timestamps.getLastD t0
      let range := maxTime - minTime
      let bucketMs : Int :=
        if range < 60 * 60 * 1000 then 60 * 1000
        else if range < 24 * 60 * 60 * 1000 then 15 * 60 * 1000
        else if range < 7 * 24 * 60 * 60 * 1000 then 60 * 60 * 1000
        else 24 * 60 * 60 * 1000
      let countAt := fun key => timestamps.countP (fun t => bucketKey bucketMs t == key)
      let maxCount :=
        ((timestamps.map (bucketKey bucketMs)).dedup.map countAt).foldl max 0
      let startBucket := bucketKey bucketMs minTime
      let endBucket := bucketKey bucketMs maxTime
      let num := ((Int.fdiv (endBucket - startBucket) bucketMs) + 1).toNat
      let result := (List.range num).map (fun k =>
        let time := startBucket + (k : Int) * bucketMs
        TimelineBucket.mk time (fmt time) (countAt time) maxCount)
      downsample30 result

structure DurationPoint where
  time : Int
  label : String
  avgDuration : Rat
  maxDuration : Rat
  minDuration : Rat
  p95Duration : Rat
  deriving DecidableEq

/-- `buckets.get(key).push(duration)` grouping, insertion-ordered. -/
def groupPush : List (Int × List Rat) → Int → Rat → List (Int × List Rat)
  | [], k, d => [(k, [d])]
  | (k', ds) :: rest, k, d =>
    if k' = k then (k', ds ++ [d]) :: rest else (k', ds) :: groupPush rest k d

def listSum (l : List Rat) : Rat := l.foldl (· + ·) 0

/-- `Math.max(...l)` over a non-empty list. -/
def listMax : List Rat → Rat
  | [] => 0
  | x :: xs => xs.foldl max x

/-- `Math.min(...l)` over a non-empty list. -/
def listMin : List Rat → Rat
  | [] => 0
  | x :: xs => xs.foldl min x

/-- The per-bucket statistics of `durationEvolution`: sort ascending, take
`p95Index = Math.floor(n * 0.95)` (= `19n/20`), and note the JS `||` in
`durations[p95Index] || durations[durations.length - 1]`: a *falsy* value at
the index — in particular `0` — falls back to the last element. -/
def bucketStats (fmt : Int → String) (kd : Int × List Rat) : DurationPoint :=
  let durations := sortByCmp (fun a b : Rat => decide (a < b)) kd.2
  let p95Index := 19 * durations.length / 20
  let p95v := durations.getD p95Index 0
  { time := kd.1
    label := fmt kd.1
    avgDuration := listSum durations / (durations.length : Rat)
    maxDuration := listMax durations
    minDuration := listMin durations
    p95Duration := if p95v ≠ 0 then p95v else durations.getLastD 0 }

/-- `durationEvolution`: pair timestamps with the numeric
`http.duration_ms`, require at least two points, bucket by 5 or 15 minutes,
and report per-bucket statistics in key order. -/
def durationEvolution (fmt : Int → String) (pd : String → Option Int)
    (logs : List JsObj) : List DurationPoint :=
  if logs.length = 0 then []
  else
    let dataPoints := sortByCmp (fun a b : Int × Rat => decide (a.1 < b.1))
      (logs.filterMap (fun e =>
        match jsNewDate pd (objGet e "@timestamp"), objGet e "http.duration_ms" with
        | some t, .num q => some (t, q)
        | _, _ => none))
    if dataPoints.length < 2 then []
    else
      let minTime := (dataPoints.headD (0, 0)).1
      let maxTime := (dataPoints.getLastD (0, 0)).1
      let range := maxTime - minTime
      let bucketMs : Int := if range < 60 * 60 * 1000 then 5 * 60 * 1000 else 15 * 60 * 1000
      let buckets := dataPoints.foldl (fun m p => groupPush m (bucketKey bucketMs p.1) p.2) []
      (sortByCmp (fun a b : Int × List Rat => decide (a.1 < b.1)) buckets).map
        (bucketStats fmt)

/-! ## Helper and spec-side definitions used by the claim theorems -/

/-- The NDJSON scenario input of spec §8:
one JSON line, a newline, then `not json`. -/
def ndjsonScenario : String :=
  "\x7b\"@timestamp\":\"2024-01-01T00:00:00Z\",\"level\":\"info\",\"msg\":\"ok\"\x7d\nnot json"

/-- A default `DurationPoint` (for `getD` on concrete outputs). -/
def dpDefault : DurationPoint := ⟨0, "", 0, 0, 0, 0⟩

/-- A record with an integer `@timestamp` and a duration, for concrete
analytics inputs. -/
def mkDurRec (t : Int) (d : Rat) : JsObj :=
  [("@timestamp", .num (t : Rat)), ("http.duration_ms", .num d)]

/-- Twenty-one records in one 5-minute bucket: durations twenty `0`s (at times
0..19) and one `1` (at time 20). -/
def dur21Logs : List JsObj :=
  ((List.range 20).map (fun i => mkDurRec i 0)) ++ [mkDurRec 20 1]

/-- The 21 duration values of `dur21Logs`. -/
def dur21Values : List Rat := (List.range 20).map (fun _ => (0 : Rat)) ++ [1]

/-- The spec's severity rank (claim C5's reading): the position in the fixed
priority list `ERROR, FATAL, CRITICAL, WARN, WARNING, INFO, DEBUG, TRACE,
UNKNOWN`; a free-form label outside the list carries no listed severity and
can only be read as an unknown severity, ranked with the list's catch-all
tail (after every listed label). -/
def specSeverityRank (l : String) : Nat :=
  if jsIndexOf levelPriority l < 0 then levelPriority.length
  else (jsIndexOf levelPriority l).toNat

/-- Does a distribution satisfy the ordering claim C5 states (severity rank
ascending, ties by descending count), checked on adjacent elements? -/
def specSeverityOrdered : List LevelCount → Bool
  | [] => true
  | [_] => true
  | a :: b :: rest =>
    (specSeverityRank a.level < specSeverityRank b.level ||
      (specSeverityRank a.level == specSeverityRank b.level && b.count ≤ a.count)) &&
    specSeverityOrdered (b :: rest)

/-- Records carrying a free-form level and an `ERROR` level (C5 input). -/
def ce5Logs : List JsObj := [[("level", .str "NOTICE")], [("level", .str "ERROR")]]

/-! ## Claim theorems -/

/-- C9: in `filterLogs`' time-range stage, a record whose `@timestamp` string
does not parse to a valid date (an Invalid Date, whose NaN value fails both
bound comparisons) is kept, for every combination of bounds. -/
theorem C9_invalid_timestamp_never_excluded (pd : String → Option Int)
    (tr : TimeRange) (e : JsObj) (s : String)
    (h1 : objGet e "@timestamp" = .str s) (h2 : pd s = none) :
    timeRangeKeep pd tr e = true := by
  have hts : jsNewDate pd (objGet e "@timestamp") = none := by
    rw [h1]; exact h2
  unfold timeRangeKeep
  rw [hts]
  cases tr.start <;> cases tr.endTime <;> simp [nanLt, nanGt, Option.any]

/-- C9 witness: a concrete record with an unparsable timestamp survives a
fully-bounded time range. -/
theorem C9_witness :
    timeRangeKeep (fun _ => none) ⟨some 0, some 10⟩
      [("@timestamp", JsonVal.str "garbage")] = true :=
  C9_invalid_timestamp_never_excluded (fun _ => none) ⟨some 0, some 10⟩
    [("@timestamp", JsonVal.str "garbage")] "garbage" rfl rfl

/-- C10: a quick filter on a field the record does not carry (or carries as
`null`/`undefined`) sees the empty string (`String(entry[field] ?? '')`), so
`equals ""` matches the record and `not_equals ""` excludes it. -/
theorem C10_missing_field_coerces_to_empty (e : JsObj) (f : SearchFilter)
    (h : objGet e f.field = .undefined ∨ objGet e f.field = .null) :
    (f.op = .equals → f.value = "" → quickFilterMatch e f = true) ∧
    (f.op = .not_equals → f.value = "" → quickFilterMatch e f = false) := by
  constructor <;> intro hop hv <;> unfold quickFilterMatch <;>
    rcases h with h | h <;> rw [h, hop, hv] <;> rfl

/-- C10 witness: a record without the field `zzz` matches `equals ""` and
fails `not_equals ""`. -/
theorem C10_witness :
    quickFilterMatch [] ⟨"zzz", "", .equals⟩ = true ∧
    quickFilterMatch [] ⟨"zzz", "", .not_equals⟩ = false :=
  ⟨(C10_missing_field_coerces_to_empty [] ⟨"zzz", "", .equals⟩ (Or.inl rfl)).1 rfl rfl,
   (C10_missing_field_coerces_to_empty [] ⟨"zzz", "", .not_equals⟩ (Or.inl rfl)).2 rfl rfl⟩

/-- C2: `filterLogs` never grows the list, and with an empty query, no quick
filters and a fully-unbounded time range it returns the input list itself. -/
theorem C2_filter_shrinks_and_no_filters_identity (pd : String → Option Int)
    (rOk : String → Bool → Bool) (rTest : String → Bool → String → Bool)
    (st : SearchState) (logs : List JsObj) :
    (filterLogs pd rOk rTest st logs).length ≤ logs.length ∧
    (st.searchQuery = "" → st.quickFilters = [] → st.timeRange = ⟨none, none⟩ →
      filterLogs pd rOk rTest st logs = logs) := by
  constructor
  · simp only [filterLogs]
    repeat' split
    all_goals
      repeat
        first
        | exact Nat.le_refl _
        | refine Nat.le_trans (List.length_filter_le _ _) ?_
  · intro h1 h2 h3
    simp [filterLogs, h1, h2, h3, show jsTrim "" = "" from rfl]

/-- C2 witness: at a concrete state with no active query, filters or range,
the filtered list is the input itself (hence no longer than it). -/
theorem C2_witness :
    (filterLogs (fun _ => none) (fun _ _ => true) (fun _ _ _ => true)
        ⟨"", false, [], ⟨none, none⟩, false⟩ [[("a", JsonVal.str "b")]]).length ≤ 1 ∧
    filterLogs (fun _ => none) (fun _ _ => true) (fun _ _ _ => true)
        ⟨"", false, [], ⟨none, none⟩, false⟩ [[("a", JsonVal.str "b")]] =
      [[("a", JsonVal.str "b")]] :=
  ⟨(C2_filter_shrinks_and_no_filters_identity _ _ _ _ _).1,
   (C2_filter_shrinks_and_no_filters_identity _ _ _ _ _).2 rfl rfl rfl⟩

/-- C1 (amended): when the trimmed content starts with `[` and the whole-file
parse fails (invalid JSON or not an array), `parseLogFile` surfaces a load
error — but the previously loaded record sequence is *retained unchanged*,
not cleared: the `catch` branch only records the message and never touches
`_logs`. -/
theorem C1_array_failure_sets_error_and_retains_logs (now : String)
    (st : ParserState) (content filename : String)
    (h1 : jsStartsWith (jsTrim content) "[" = true)
    (h2 : (match jsonParse (jsTrim content) with
           | some (.arr _) => false
           | _ => true) = true) :
    ((parseLogFile now st content filename).error.isSome = true) ∧
    (parseLogFile now st content filename).logs = st.logs := by
  unfold parseLogFile
  simp only [h1, if_true]
  cases hp : jsonParse (jsTrim content) with
  | none => simp [parseJsonArrayE, hp]
  | some v =>
    rw [hp] at h2
    cases v <;> simp_all [parseJsonArrayE, hp]

/-- C1 witness: a prior state with one loaded record, fed `"[oops"`, ends with
an error and the same single record still loaded. -/
theorem C1_witness :
    ((parseLogFile "NOW" ⟨[[("x", JsonVal.str "y")]], false, none⟩
        "[oops" "f.json").error.isSome = true) ∧
    (parseLogFile "NOW" ⟨[[("x", JsonVal.str "y")]], false, none⟩
        "[oops" "f.json").logs = [[("x", JsonVal.str "y")]] :=
  C1_array_failure_sets_error_and_retains_logs "NOW"
    ⟨[[("x", JsonVal.str "y")]], false, none⟩ "[oops" "f.json" (by rfl) (by rfl)

/-- C1 counterexample: the claim asserts the loaded sequence is empty after a
failing array-parse call; on the concrete failing input `"[oops"` with a
non-empty previous load, the error is surfaced but the logs are not empty. -/
theorem C1_counterexample :
    ((parseLogFile "NOW" ⟨[[("x", JsonVal.str "y")]], false, none⟩
        "[oops" "f.json").error.isSome = true) ∧
    (parseLogFile "NOW" ⟨[[("x", JsonVal.str "y")]], false, none⟩
        "[oops" "f.json").logs ≠ [] := by
  constructor
  · rfl
  · decide

/-- C6 (amended): a pass of `unescapeString` fires only on the three tested
sequences `\"`, `\n`, `\t`: a non-quote-delimited string containing none of
those three is returned unchanged — even when it contains `\r` or `\\` escape
sequences; when a pass does fire, all five replacements run (the second
conjunct shows `\r` being replaced in the presence of `\n`). -/
theorem C6_pass_fires_only_on_three_sequences (s : String) (hne : s ≠ "")
    (hq : (jsStartsWith s "\"" && jsEndsWith s "\"") = false)
    (h3 : (jsIncludes s "\\\"" || jsIncludes s "\\n" || jsIncludes s "\\t") = false) :
    unescapeString s = s ∧ unescapeString "a\\n\\rb" = "a\n\rb" := by
  refine ⟨?_, by rfl⟩
  unfold unescapeString
  rw [if_neg hne]
  have hstep : unescStep s = .stop s := by
    unfold unescStep
    rw [hq]
    simp only [Bool.false_eq_true, if_false]
    unfold escCheck
    rw [h3]
    simp
  show unescRun 3 s s = s
  unfold unescRun
  rw [hstep]

/-- C6 witness: `"xyz"` (no escapes) is unchanged; `"a\n\rb"` (with both
`\n` and `\r` escapes) has both replaced in one pass. -/
theorem C6_witness :
    unescapeString "xyz" = "xyz" ∧ unescapeString "a\\n\\rb" = "a\n\rb" :=
  C6_pass_fires_only_on_three_sequences "xyz" (by decide) (by rfl) (by rfl)

/-- C6 counterexample: `"a\rb"` contains the `\r` escape sequence and the
replacement chain would change it, yet `unescapeString` returns it unchanged —
the pass's guard does not test `\r` (nor `\\`). -/
theorem C6_counterexample :
    jsIncludes "a\\rb" "\\r" = true ∧ escReplace "a\\rb" = "a\rb" ∧
    unescapeString "a\\rb" = "a\\rb" := by decide

/-! ### Object-map lemmas (for C7) -/

/-- Every binding of `objSet o k v` is a binding of `o` or carries `v`. -/
theorem objSet_mem : ∀ (o : JsObj) (k : String) (v : JsonVal)
    (kv : String × JsonVal), kv ∈ objSet o k v → kv ∈ o ∨ kv.2 = v := by
  intro o k v
  induction o with
  | nil =>
    intro kv h
    simp only [objSet, List.mem_singleton] at h
    right; rw [h]
  | cons hd tl ih =>
    intro kv h
    obtain ⟨k', v'⟩ := hd
    unfold objSet at h
    by_cases hk : k' = k
    · simp only [hk, if_true, List.mem_cons] at h
      rcases h with h | h
      · right; rw [h]
      · left; exact List.mem_cons_of_mem _ h
    · simp only [hk, if_false, List.mem_cons] at h
      rcases h with h | h
      · left; exact h ▸ List.mem_cons_self _ _
      · rcases ih kv h with h' | h'
        · left; exact List.mem_cons_of_mem _ h'
        · right; exact h'

/-- Every binding of `Object.assign(a, b)` is a binding of `a` or carries a
value of `b`. -/
theorem objAssign_mem : ∀ (b a : JsObj) (kv : String × JsonVal),
    kv ∈ objAssign a b → kv ∈ a ∨ ∃ kv' ∈ b, kv.2 = kv'.2 := by
  intro b
  induction b with
  | nil => intro a kv h; exact Or.inl h
  | cons hd tl ih =>
    intro a kv h
    have h2 := ih (objSet a hd.1 hd.2) kv h
    rcases h2 with h2 | ⟨kv', hm, he⟩
    · rcases objSet_mem a hd.1 hd.2 kv h2 with h3 | h3
      · exact Or.inl h3
      · exact Or.inr ⟨hd, List.mem_cons_self _ _, h3⟩
    · exact Or.inr ⟨kv', List.mem_cons_of_mem _ hm, he⟩

/-- `objSet` preserves existing keys. -/
theorem objKeys_objSet_superset : ∀ (o : JsObj) (k v k'),
    k' ∈ objKeys o → k' ∈ objKeys (objSet o k v) := by
  intro o k v
  induction o with
  | nil => intro k' h; simp [objKeys] at h
  | cons hd tl ih =>
    intro k' h
    obtain ⟨kh, vh⟩ := hd
    simp only [objKeys, List.map_cons, List.mem_cons] at h
    unfold objSet
    by_cases hk : kh = k
    · simp only [hk, if_true, objKeys, List.map_cons, List.mem_cons]
      rcases h with h | h
      · exact Or.inl (h.trans hk)
      · exact Or.inr h
    · simp only [hk, if_false, objKeys, List.map_cons, List.mem_cons]
      rcases h with h | h
      · exact Or.inl h
      · exact Or.inr (ih k' h)

/-- `objSet` establishes its own key. -/
theorem objKeys_objSet_self : ∀ (o : JsObj) (k v), k ∈ objKeys (objSet o k v) := by
  intro o k v
  induction o with
  | nil => simp [objSet, objKeys]
  | cons hd tl ih =>
    obtain ⟨kh, vh⟩ := hd
    unfold objSet
    by_cases hk : kh = k
    · simp [hk, objKeys]
    · simp only [hk, if_false, objKeys, List.map_cons, List.mem_cons]
      exact Or.inr ih

/-- `objAssign` preserves the keys of its left argument. -/
theorem objKeys_objAssign_left : ∀ (b a : JsObj) (k'),
    k' ∈ objKeys a → k' ∈ objKeys (objAssign a b) := by
  intro b
  induction b with
  | nil => intro a k' h; exact h
  | cons hd tl ih =>
    intro a k' h
    exact ih _ k' (objKeys_objSet_superset a hd.1 hd.2 k' h)

/-! ### Flattening lemmas (C7) -/

/-- If no value of `o` is a plain object and `v` is not, the same holds for
`objSet o k v`. -/
theorem objSet_values_nonobj (o : JsObj) (k : String) (v : JsonVal)
    (hacc : ∀ kv ∈ o, isPlainObj kv.2 = false) (hv : isPlainObj v = false) :
    ∀ kv ∈ objSet o k v, isPlainObj kv.2 = false := fun kv h =>
  (objSet_mem o k v kv h).elim (hacc kv) (fun he => he ▸ hv)

/-- No value in the output of `flattenList` is itself a plain object, provided
none in the accumulator is: the recursion dissolves every plain nested object
into leaf bindings (arrays, being excluded from the recursion, stay intact as
single values). -/
theorem flattenList_values_nonobj :
    ∀ (result : JsObj) (entries : List (String × JsonVal)) (pfx : String),
      (∀ kv ∈ result, isPlainObj kv.2 = false) →
      ∀ kv ∈ flattenList result entries pfx, isPlainObj kv.2 = false := by
  refine flattenList.induct
    (fun result entries pfx =>
      (∀ kv ∈ result, isPlainObj kv.2 = false) →
      ∀ kv ∈ flattenList result entries pfx, isPlainObj kv.2 = false)
    (fun result newKey v =>
      (∀ kv ∈ result, isPlainObj kv.2 = false) →
      ∀ kv ∈ flattenVal result newKey v, isPlainObj kv.2 = false)
    ?_ ?_ ?_ ?_ ?_ ?_ ?_ ?_ ?_
  · -- flattenVal, plain-object value: Object.assign of the sub-flattening
    intro result newKey fields ih hacc kv h
    rw [flattenVal] at h
    rcases objAssign_mem _ _ kv h with h2 | ⟨kv', hm, he⟩
    · exact hacc kv h2
    · rw [he]
      exact ih (by intro x hx; simp at hx) kv' hm
  · intro result newKey hacc kv h
    rw [flattenVal] at h
    exact objSet_values_nonobj result newKey .undefined hacc rfl kv h
  · intro result newKey hacc kv h
    rw [flattenVal] at h
    exact objSet_values_nonobj result newKey .null hacc rfl kv h
  · intro result newKey b hacc kv h
    rw [flattenVal] at h
    exact objSet_values_nonobj result newKey (.bool b) hacc rfl kv h
  · intro result newKey q hacc kv h
    rw [flattenVal] at h
    exact objSet_values_nonobj result newKey (.num q) hacc rfl kv h
  · intro result newKey s hacc kv h
    rw [flattenVal] at h
    exact objSet_values_nonobj result newKey (.str s) hacc rfl kv h
  · intro result newKey xs hacc kv h
    rw [flattenVal] at h
    exact objSet_values_nonobj result newKey (.arr xs) hacc rfl kv h
  · -- flattenList, empty entry list
    intro result pfx hacc kv h
    rw [flattenList] at h
    exact hacc kv h
  · -- flattenList, cons
    intro result k v rest pfx ihv ihl hacc kv h
    rw [flattenList] at h
    exact ihl (ihv hacc) kv h

/-- `flattenList` preserves the keys already present in its accumulator. -/
theorem flattenList_keys_mono :
    ∀ (result : JsObj) (entries : List (String × JsonVal)) (pfx : String) (k'),
      k' ∈ objKeys result → k' ∈ objKeys (flattenList result entries pfx) := by
  refine flattenList.induct
    (fun result entries pfx =>
      ∀ k', k' ∈ objKeys result → k' ∈ objKeys (flattenList result entries pfx))
    (fun result newKey v =>
      ∀ k', k' ∈ objKeys result → k' ∈ objKeys (flattenVal result newKey v))
    ?_ ?_ ?_ ?_ ?_ ?_ ?_ ?_ ?_
  · intro result newKey fields _ k' h
    rw [flattenVal]
    exact objKeys_objAssign_left _ _ k' h
  · intro result newKey k' h
    rw [flattenVal]
    exact objKeys_objSet_superset _ _ _ k' h
  · intro result newKey k' h
    rw [flattenVal]
    exact objKeys_objSet_superset _ _ _ k' h
  · intro result newKey b k' h
    rw [flattenVal]
    exact objKeys_objSet_superset _ _ _ k' h
  · intro result newKey q k' h
    rw [flattenVal]
    exact objKeys_objSet_superset _ _ _ k' h
  · intro result newKey s k' h
    rw [flattenVal]
    exact objKeys_objSet_superset _ _ _ k' h
  · intro result newKey xs k' h
    rw [flattenVal]
    exact objKeys_objSet_superset _ _ _ k' h
  · intro result pfx k' h
    rw [flattenList]
    exact h
  · intro result k v rest pfx ihv ihl k' h
    rw [flattenList]
    exact ihl k' (ihv k' h)

/-- Every entry whose value is not a plain object contributes its dot-path
key to the output of `flattenList`. -/
theorem flattenList_keys_cover :
    ∀ (entries : List (String × JsonVal)) (result : JsObj) (pfx : String)
      (k : String) (v : JsonVal), (k, v) ∈ entries → isPlainObj v = false →
      joinKey pfx k ∈ objKeys (flattenList result entries pfx) := by
  intro entries
  induction entries with
  | nil =>
    intro result pfx k v h _
    simp at h
  | cons hd rest ih =>
    intro result pfx k v h hv
    obtain ⟨kh, vh⟩ := hd
    rw [flattenList]
    rcases List.mem_cons.mp h with h | h
    · obtain ⟨hk, hvv⟩ := Prod.mk.injEq _ _ _ _ |>.mp h.symm
      rw [← hk]
      refine flattenList_keys_mono _ rest pfx _ ?_
      rw [← hvv] at hv
      cases vh with
      | obj fs => simp [isPlainObj] at hv
      | undefined => rw [flattenVal]; exact objKeys_objSet_self _ _ _
      | null => rw [flattenVal]; exact objKeys_objSet_self _ _ _
      | bool b => rw [flattenVal]; exact objKeys_objSet_self _ _ _
      | num q => rw [flattenVal]; exact objKeys_objSet_self _ _ _
      | str s => rw [flattenVal]; exact objKeys_objSet_self _ _ _
      | arr xs => rw [flattenVal]; exact objKeys_objSet_self _ _ _
    · exact ih _ pfx k v h hv


/-- C7 (amended): flattening recurses only into plain nested objects — no
output value is itself a plain object, so array-valued fields survive intact
as single attributes — and every field whose value is not a plain object is
spanned by its dot-path key in the output.  The unqualified no-information-loss
part of the claim fails: a field holding an *empty* nested object contributes
no attribute at all (see the counterexample). -/
theorem C7_flatten_no_arrays_and_nonobj_cover (entries : List (String × JsonVal))
    (pfx : String) (kv : String × JsonVal) (k : String) (v : JsonVal) :
    (kv ∈ flattenObject entries pfx → isPlainObj kv.2 = false) ∧
    ((k, v) ∈ entries → isPlainObj v = false →
      joinKey pfx k ∈ objKeys (flattenObject entries pfx)) := by
  constructor
  · intro h
    exact flattenList_values_nonobj [] entries pfx (by intro x hx; simp at hx) kv h
  · intro h hv
    exact flattenList_keys_cover entries [] pfx k v h hv

/-- C7 witness: on a record with an array field and a nested object field,
the array survives as a single attribute value and both dot-path keys are
present. -/
theorem C7_witness :
    isPlainObj (("a", JsonVal.arr [JsonVal.num 1, JsonVal.num 2]) :
      String × JsonVal).2 = false ∧
    joinKey "" "a" ∈ objKeys (flattenObject
      [("a", JsonVal.arr [JsonVal.num 1, JsonVal.num 2]),
       ("b", JsonVal.obj [("c", JsonVal.str "x")])] "") :=
  ⟨(C7_flatten_no_arrays_and_nonobj_cover
      [("a", JsonVal.arr [JsonVal.num 1, JsonVal.num 2]),
       ("b", JsonVal.obj [("c", JsonVal.str "x")])] ""
      ("a", JsonVal.arr [JsonVal.num 1, JsonVal.num 2])
      "a" (JsonVal.arr [JsonVal.num 1, JsonVal.num 2])).1 (by decide),
   (C7_flatten_no_arrays_and_nonobj_cover
      [("a", JsonVal.arr [JsonVal.num 1, JsonVal.num 2]),
       ("b", JsonVal.obj [("c", JsonVal.str "x")])] ""
      ("a", JsonVal.arr [JsonVal.num 1, JsonVal.num 2])
      "a" (JsonVal.arr [JsonVal.num 1, JsonVal.num 2])).2 (by decide) (by decide)⟩

/-- C7 counterexample: an object whose field `a` holds an *empty* nested
object flattens to the empty mapping — indistinguishable from flattening the
empty object — and the normalized record's keys are only the five named ones:
nothing spans the original field `a`, so the claimed no-information-loss
property fails on objects containing empty nested objects. -/
theorem C7_counterexample :
    flattenObject [("a", JsonVal.obj [])] "" = [] ∧
    flattenObject [("a", JsonVal.obj [])] "" = flattenObject [] "" ∧
    objKeys (normalizeEntry "NOW" (JsonVal.obj [("a", JsonVal.obj [])]) 0) =
      ["_id", "_index", "@timestamp", "level", "message"] := by decide

/-! ### Sorting lemmas (C4, C5) -/

/-- Inserting is a permutation. -/
theorem insertCmp_perm (ltb : α → α → Bool) (x : α) (l : List α) :
    (insertCmp ltb x l).Perm (x :: l) := by
  induction l with
  | nil => exact List.Perm.refl _
  | cons y ys ih =>
    unfold insertCmp
    by_cases h : ltb x y = true
    · rw [if_pos h]
    · rw [if_neg h]
      exact (ih.cons y).trans (List.Perm.swap x y ys)

/-- The comparator sort is a permutation of its input. -/
theorem sortByCmp_perm (ltb : α → α → Bool) (l : List α) :
    (sortByCmp ltb l).Perm l := by
  suffices h : ∀ (l acc : List α),
      (l.foldl (fun a x => insertCmp ltb x a) acc).Perm (acc ++ l) by
    simpa [sortByCmp] using h l []
  intro l
  induction l with
  | nil => intro acc; simp
  | cons x xs ih =>
    intro acc
    simp only [List.foldl_cons]
    refine (ih (insertCmp ltb x acc)).trans ?_
    have h1 : (insertCmp ltb x acc ++ xs).Perm (x :: (acc ++ xs)) :=
      (insertCmp_perm ltb x acc).append_right xs
    exact h1.trans List.perm_middle.symm

/-- The sort preserves length. -/
theorem sortByCmp_length (ltb : α → α → Bool) (l : List α) :
    (sortByCmp ltb l).length = l.length :=
  (sortByCmp_perm ltb l).length_eq

/-- Inserting preserves comparator-sortedness, for an asymmetric and
negatively-transitive comparator. -/
theorem insertCmp_pairwise (ltb : α → α → Bool)
    (hasymm : ∀ a b, ltb a b = true → ltb b a = false)
    (htrans : ∀ a b c, ltb b a = false → ltb c b = false → ltb c a = false)
    (x : α) (l : List α) (hl : l.Pairwise (fun a b => ltb b a = false)) :
    (insertCmp ltb x l).Pairwise (fun a b => ltb b a = false) := by
  induction l with
  | nil => simp [insertCmp]
  | cons y ys ih =>
    rcases List.pairwise_cons.mp hl with ⟨hy, hys⟩
    unfold insertCmp
    cases hxy : ltb x y with
    | true =>
      rw [if_pos rfl]
      refine List.Pairwise.cons ?_ hl
      intro z hz
      rcases List.mem_cons.mp hz with rfl | hz
      · exact hasymm x z hxy
      · exact htrans x y z (hasymm x y hxy) (hy z hz)
    | false =>
      rw [if_neg (by simp)]
      refine List.Pairwise.cons ?_ (ih hys)
      intro z hz
      have hz' : z ∈ x :: ys := (insertCmp_perm ltb x ys).mem_iff.mp hz
      rcases List.mem_cons.mp hz' with rfl | hz'
      · exact hxy
      · exact hy z hz'

/-- The comparator sort is sorted: no later element compares strictly below
an earlier one. -/
theorem sortByCmp_pairwise (ltb : α → α → Bool)
    (hasymm : ∀ a b, ltb a b = true → ltb b a = false)
    (htrans : ∀ a b c, ltb b a = false → ltb c b = false → ltb c a = false)
    (l : List α) :
    (sortByCmp ltb l).Pairwise (fun a b => ltb b a = false) := by
  suffices h : ∀ (l acc : List α), acc.Pairwise (fun a b => ltb b a = false) →
      (l.foldl (fun a x => insertCmp ltb x a) acc).Pairwise
        (fun a b => ltb b a = false) by
    exact h l [] (List.Pairwise.nil)
  intro l
  induction l with
  | nil => intro acc hacc; exact hacc
  | cons x xs ih =>
    intro acc hacc
    simp only [List.foldl_cons]
    exact ih _ (insertCmp_pairwise ltb hasymm htrans x acc hacc)

/-- The level comparator is asymmetric. -/
theorem levelCmpLt_asymm (a b : String × Nat) :
    levelCmpLt a b = true → levelCmpLt b a = false := by
  unfold levelCmpLt
  simp only [decide_eq_true_eq, decide_eq_false_iff_not, not_lt]
  split_ifs <;> omega

/-- The level comparator's non-strict form is transitive. -/
theorem levelCmpLt_trans (a b c : String × Nat) :
    levelCmpLt b a = false → levelCmpLt c b = false → levelCmpLt c a = false := by
  unfold levelCmpLt
  simp only [decide_eq_false_iff_not, not_lt]
  split_ifs <;> omega

/-- C5 (amended): `levelDistribution` reports exactly the per-level counts
(level upper-cased, missing level counted as `UNKNOWN`), sorted by the code's
comparator: `indexOf` priority ascending — which ranks every label *not* in
the priority list at `-1`, i.e. *before* all listed labels, `ERROR` included —
and, within equal priority, by descending count. -/
theorem C5_distribution_sorted_by_indexOf (logs : List JsObj) :
    ((levelDistribution logs).map (fun c => (c.level, c.count))).Perm
      (levelCounts logs) ∧
    (levelDistribution logs).Pairwise
      (fun a b => levelCmpLt (b.level, b.count) (a.level, a.count) = false) := by
  constructor
  · unfold levelDistribution
    rw [List.map_map]
    have hext : ∀ kc : String × Nat,
        ((fun c : LevelCount => (c.level, c.count)) ∘
          (fun kc : String × Nat =>
            ({ level := kc.1, count := kc.2,
               percentage := if 0 < logs.length then (kc.2 : Rat) / (logs.length : Rat) * 100 else 0,
               color := levelColor kc.1 } : LevelCount))) kc = kc := fun kc => rfl
    rw [funext hext]
    simpa using sortByCmp_perm levelCmpLt (levelCounts logs)
  · unfold levelDistribution
    rw [List.pairwise_map]
    exact sortByCmp_pairwise levelCmpLt levelCmpLt_asymm levelCmpLt_trans _

/-- C5 counterexample: with records levelled `NOTICE` (free-form, not in the
priority list) and `ERROR`, the code emits the `NOTICE` group *first* —
`indexOf` gives it priority `-1` — violating the claimed ordering by the
fixed severity priority list, under which `ERROR` (the list's head) precedes
a label that is not in the list. -/
theorem C5_counterexample :
    (levelDistribution ce5Logs).map (fun c => c.level) = ["NOTICE", "ERROR"] ∧
    specSeverityOrdered (levelDistribution ce5Logs) = false := by decide

/-! ### Duration-bucket lemmas (C4) -/

/-- `groupPush` never creates an empty value list. -/
theorem groupPush_nonempty (m : List (Int × List Rat)) (k : Int) (d : Rat)
    (hm : ∀ kd ∈ m, kd.2 ≠ []) : ∀ kd ∈ groupPush m k d, kd.2 ≠ [] := by
  induction m with
  | nil =>
    intro kd h
    simp only [groupPush, List.mem_singleton] at h
    rw [h]
    simp
  | cons hd tl ih =>
    intro kd h
    obtain ⟨kh, ds⟩ := hd
    unfold groupPush at h
    by_cases hk : kh = k
    · rw [if_pos hk] at h
      rcases List.mem_cons.mp h with rfl | h2
      · simp
      · exact hm _ (List.mem_cons_of_mem _ h2)
    · rw [if_neg hk] at h
      rcases List.mem_cons.mp h with rfl | h2
      · exact hm _ (List.mem_cons_self _ _)
      · exact ih (fun kd h => hm kd (List.mem_cons_of_mem _ h)) kd h2

/-- Folding `groupPush` over data points never creates an empty value list. -/
theorem foldl_groupPush_nonempty (b : Int) (pts : List (Int × Rat)) :
    ∀ (m : List (Int × List Rat)), (∀ kd ∈ m, kd.2 ≠ []) →
      ∀ kd ∈ pts.foldl (fun m p => groupPush m (bucketKey b p.1) p.2) m, kd.2 ≠ [] := by
  induction pts with
  | nil => intro m hm kd h; exact hm kd h
  | cons p rest ih =>
    intro m hm kd h
    simp only [List.foldl_cons] at h
    exact ih _ (groupPush_nonempty m _ _ hm) kd h

/-- C4 (amended): every point reported by `durationEvolution` is the
statistics of a non-empty duration bucket, whose p95 index
`Math.floor(n * 0.95)` (= `19n/20`) *never* overflows (`19n/20 < n`); when
the sorted bucket's value at that index is non-zero, it is reported as the
p95 — in particular `100` for the sorted bucket `[10, 20, 30, 40, 100]` —
but when that value is `0`, the JS `||` treats it as falsy and the reported
p95 is instead the bucket's *last* (largest) value. -/
theorem C4_p95_nearest_rank_with_falsy_zero (fmt : Int → String)
    (pd : String → Option Int) (logs : List JsObj) (pt : DurationPoint)
    (hpt : pt ∈ durationEvolution fmt pd logs) :
    (∃ t ds, ds ≠ [] ∧ pt = bucketStats fmt (t, ds) ∧
      19 * ds.length / 20 < ds.length ∧
      ((sortByCmp (fun a b : Rat => decide (a < b)) ds).getD (19 * ds.length / 20) 0 ≠ 0 →
        pt.p95Duration =
          (sortByCmp (fun a b : Rat => decide (a < b)) ds).getD (19 * ds.length / 20) 0) ∧
      ((sortByCmp (fun a b : Rat => decide (a < b)) ds).getD (19 * ds.length / 20) 0 = 0 →
        pt.p95Duration =
          (sortByCmp (fun a b : Rat => decide (a < b)) ds).getLastD 0)) ∧
    (bucketStats fmt (0, [10, 20, 30, 40, 100])).p95Duration = 100 := by
  refine ⟨?_, by rfl⟩
  unfold durationEvolution at hpt
  split at hpt
  · simp at hpt
  · simp only [] at hpt
    split at hpt
    · simp at hpt
    · rcases List.mem_map.mp hpt with ⟨⟨t, ds⟩, hmem, hstat⟩
      have hmem' := (sortByCmp_perm _ _).mem_iff.mp hmem
      have hne : ds ≠ [] :=
        foldl_groupPush_nonempty _ _ [] (by intro kd h; simp at h) (t, ds) hmem'
      refine ⟨t, ds, hne, hstat.symm, ?_, ?_, ?_⟩
      · have hlen : 0 < ds.length := List.length_pos.mpr hne
        have : 19 * ds.length < ds.length * 20 := by omega
        exact (Nat.div_lt_iff_lt_mul (by norm_num)).mpr this
      · intro hnz
        rw [← hstat]
        unfold bucketStats
        simp only [sortByCmp_length]
        rw [if_pos hnz]
      · intro hz
        rw [← hstat]
        unfold bucketStats
        simp only [sortByCmp_length]
        rw [if_neg (show ¬ _ ≠ (0 : Rat) from fun hne => hne hz)]

set_option maxRecDepth 8000 in
/-- C4 witness: the theorem applied to the single bucket of the 21-record
input (twenty zero durations, one `1`). -/
theorem C4_witness :
    (∃ t ds, ds ≠ [] ∧
      (durationEvolution (fun _ => "") (fun _ => none) dur21Logs).getD 0 dpDefault =
        bucketStats (fun _ => "") (t, ds) ∧
      19 * ds.length / 20 < ds.length ∧
      ((sortByCmp (fun a b : Rat => decide (a < b)) ds).getD (19 * ds.length / 20) 0 ≠ 0 →
        ((durationEvolution (fun _ => "") (fun _ => none) dur21Logs).getD 0
            dpDefault).p95Duration =
          (sortByCmp (fun a b : Rat => decide (a < b)) ds).getD (19 * ds.length / 20) 0) ∧
      ((sortByCmp (fun a b : Rat => decide (a < b)) ds).getD (19 * ds.length / 20) 0 = 0 →
        ((durationEvolution (fun _ => "") (fun _ => none) dur21Logs).getD 0
            dpDefault).p95Duration =
          (sortByCmp (fun a b : Rat => decide (a < b)) ds).getLastD 0)) ∧
    (bucketStats (fun _ => "") (0, [10, 20, 30, 40, 100])).p95Duration = 100 :=
  C4_p95_nearest_rank_with_falsy_zero (fun _ => "") (fun _ => none) dur21Logs
    ((durationEvolution (fun _ => "") (fun _ => none) dur21Logs).getD 0 dpDefault)
    (by with_unfolding_all decide)

set_option maxRecDepth 8000 in
/-- C4 counterexample: in the bucket of the 21-record input the sorted
durations are twenty `0`s then `1`; the claimed p95 is the element at index
`floor(21 * 0.95) = 19`, which is `0` — but the code reports `1`: the `||`
fallback fires on the falsy `0` even though the index did not overflow.
(`maxRecDepth` raised for the concrete kernel evaluation.) -/
theorem C4_counterexample :
    (durationEvolution (fun _ => "") (fun _ => none) dur21Logs).map
      (fun p => p.p95Duration) = [1] ∧
    (sortByCmp (fun a b : Rat => decide (a < b)) dur21Values).getD 19 0 = 0 ∧
    (1 : Rat) ≠ 0 := by with_unfolding_all decide

/-- C8 (amended): NDJSON parsing never fails the load — it emits exactly one
record per non-blank line, a line that fails `JSON.parse` being downgraded to
a plain-text record (the whole line as `message`, retained as `_raw`) while
every parsing line is normalized.  In the §8 two-line scenario this yields 2
records, the second the text record for `not json`; but the first record's
`level` is `"info"`, not `"INFO"`: the trailing `...flattened` spread in
`normalizeEntry` overwrites the detected upper-cased level with the raw
field value. -/
theorem C8_ndjson_line_failure_downgraded (now content : String) :
    ((parseNdjson now content).length =
      ((jsSplitNl content).filter (fun l => jsTrim l ≠ "")).length) ∧
    (∀ i line, ((jsSplitNl content).filter (fun l => jsTrim l ≠ ""))[i]? = some line →
      jsonParse line = none →
      (parseNdjson now content)[i]? = some (createTextEntry now line i)) ∧
    (∀ i line v, ((jsSplitNl content).filter (fun l => jsTrim l ≠ ""))[i]? = some line →
      jsonParse line = some v →
      (parseNdjson now content)[i]? = some (normalizeEntry now v i)) ∧
    ((parseNdjson "NOW" ndjsonScenario).length = 2 ∧
      objGet ((parseNdjson "NOW" ndjsonScenario).getD 0 []) "message" = .str "ok" ∧
      objGet ((parseNdjson "NOW" ndjsonScenario).getD 0 []) "level" = .str "info" ∧
      objGet ((parseNdjson "NOW" ndjsonScenario).getD 1 []) "message" = .str "not json" ∧
      objGet ((parseNdjson "NOW" ndjsonScenario).getD 1 []) "_raw" = .str "not json" ∧
      (parseNdjson "NOW" ndjsonScenario).getD 1 [] =
        createTextEntry "NOW" "not json" 1) := by
  refine ⟨?_, ?_, ?_, by decide⟩
  · simp [parseNdjson]
  · intro i line hline hp
    unfold parseNdjson
    rw [List.getElem?_map, List.getElem?_enum, hline]
    simp [hp]
  · intro i line v hline hp
    unfold parseNdjson
    rw [List.getElem?_map, List.getElem?_enum, hline]
    simp [hp]

/-- C8 witness: the theorem applied at the §8 scenario, the failing line
`not json` at index 1 becoming exactly its text record. -/
theorem C8_witness :
    (parseNdjson "NOW" ndjsonScenario)[1]? =
      some (createTextEntry "NOW" "not json" 1) :=
  (C8_ndjson_line_failure_downgraded "NOW" ndjsonScenario).2.1 1 "not json"
    (by decide) (by decide)

/-- C8 counterexample: the §8 scenario's first record carries
`level = "info"` — the raw lower-case field value, surviving the spread —
whereas the claim asserts `level = "INFO"`. -/
theorem C8_counterexample :
    objGet ((parseNdjson "NOW" ndjsonScenario).getD 0 []) "level" =
      JsonVal.str "info" ∧
    JsonVal.str "info" ≠ JsonVal.str "INFO" := by decide

/-! ### Down-sampling arithmetic (C3) -/

/-- Exact count of the indices `i, i+1, …, i+len-1` that are multiples of
`s` (the elements `result.filter((_, i) => i % step === 0)` keeps): with
`d := (s - i % s) % s` the distance from `i` up to the next multiple, the
count is `(len - d + (s-1)) / s`. -/
theorem filterIdx_mod_length {α : Type _} (s : Nat) (hs : 0 < s) :
    ∀ (xs : List α) (i : Nat),
      (filterIdx (fun j => j % s == 0) i xs).length =
        (xs.length - (s - i % s) % s + (s - 1)) / s := by
  by_cases hs1 : s = 1
  · subst hs1
    intro xs
    induction xs with
    | nil => intro i; simp [filterIdx]
    | cons x rest ih =>
      intro i
      have hkeep : ((i % 1 == 0) : Bool) = true := by simp [Nat.mod_one]
      simp only [filterIdx, hkeep, if_true, List.length_cons]
      rw [ih (i + 1)]
      simp only [Nat.mod_one, Nat.div_one, Nat.sub_zero, Nat.sub_self, Nat.add_zero]
  · have hs2 : 2 ≤ s := by omega
    intro xs
    induction xs with
    | nil =>
      intro i
      show 0 = (0 - (s - i % s) % s + (s - 1)) / s
      rw [Nat.zero_sub, Nat.zero_add]
      exact (Nat.div_eq_of_lt (by omega)).symm
    | cons x rest ih =>
      intro i
      have hm : i % s < s := Nat.mod_lt _ hs
      have hsucc : (i + 1) % s = (i % s + 1) % s := by
        conv_lhs => rw [← Nat.div_add_mod i s]
        rw [Nat.add_assoc, Nat.mul_add_mod]
      by_cases h0 : i % s = 0
      · have hkeep : ((i % s == 0) : Bool) = true := by simp [h0]
        have hd : (s - i % s) % s = 0 := by
          rw [h0, Nat.sub_zero, Nat.mod_self]
        have hd' : (s - (i + 1) % s) % s = s - 1 := by
          rw [hsucc, h0, Nat.zero_add, Nat.mod_eq_of_lt (by omega : 1 < s),
            Nat.mod_eq_of_lt (by omega)]
        simp only [filterIdx, hkeep, if_true, List.length_cons]
        rw [ih (i + 1), hd', hd]
        by_cases hn : s - 1 ≤ rest.length
        · have e1 : rest.length - (s - 1) + (s - 1) = rest.length := by omega
          have e2 : rest.length + 1 - 0 + (s - 1) = rest.length + s := by omega
          rw [e1, e2, Nat.add_div_right _ hs]
        · have e1 : rest.length - (s - 1) = 0 := by omega
          have e2 : rest.length + 1 - 0 + (s - 1) = rest.length + s := by omega
          rw [e1, e2, Nat.add_div_right _ hs, Nat.zero_add,
            Nat.div_eq_of_lt (by omega : s - 1 < s),
            Nat.div_eq_of_lt (by omega : rest.length < s)]
      · have hkeep : ((i % s == 0) : Bool) = false := by simp [h0]
        have hd : (s - i % s) % s = s - i % s := Nat.mod_eq_of_lt (by omega)
        simp only [filterIdx, hkeep, Bool.false_eq_true, if_false, List.length_cons]
        rw [ih (i + 1)]
        by_cases hm1 : i % s = s - 1
        · have hd' : (s - (i + 1) % s) % s = 0 := by
            rw [hsucc, hm1, show s - 1 + 1 = s from by omega, Nat.mod_self,
              Nat.sub_zero, Nat.mod_self]
          rw [hd', hd, hm1]
          have e : rest.length + 1 - (s - (s - 1)) = rest.length - 0 := by omega
          rw [e]
        · have hd' : (s - (i + 1) % s) % s = s - i % s - 1 := by
            rw [hsucc, Nat.mod_eq_of_lt (by omega : i % s + 1 < s)]
            exact Nat.mod_eq_of_lt (by omega)
          rw [hd', hd]
          have e : rest.length + 1 - (s - i % s) = rest.length - (s - i % s - 1) := by
            omega
          rw [e]

/-- The down-sampling step keeps at most 30 elements, for every input
length: when the series exceeds 30, the stride `ceil(n/30)` guarantees
`ceil(n / ceil(n/30)) ≤ 30`. -/
theorem downsample30_length_le {α : Type _} (l : List α) :
    (downsample30 l).length ≤ 30 := by
  unfold downsample30
  by_cases h : 30 < l.length
  · rw [if_pos h]
    have hstep : 0 < (l.length + 29) / 30 := Nat.div_pos (by omega) (by norm_num)
    rw [filterIdx_mod_length _ hstep l 0]
    simp only [Nat.zero_mod, Nat.sub_zero, Nat.mod_self]
    have hdm := Nat.div_add_mod (l.length + 29) 30
    have hr : (l.length + 29) % 30 < 30 := Nat.mod_lt _ (by norm_num)
    have hbound : l.length + ((l.length + 29) / 30 - 1) <
        31 * ((l.length + 29) / 30) := by omega
    have hdiv := (Nat.div_lt_iff_lt_mul hstep).mpr hbound
    omega
  · rw [if_neg h]
    omega

/-- C3: the timeline histogram never reports more than 30 buckets: the
gap-filled series is either already within 30 points or is down-sampled by
keeping every `ceil(count/30)`-th point, which caps the kept count at 30 for
every series length. -/
theorem C3_timeline_at_most_30_buckets (fmt : Int → String)
    (pd : String → Option Int) (logs : List JsObj) :
    (timelineData fmt pd logs).length ≤ 30 := by
  unfold timelineData
  split
  · simp
  · simp only []
    split
    · simp
    · exact downsample30_length_le _

end KLA
